import Mathlib

/-!
Shallow embedding of the OpenVPN 3 Linux configuration manager
(`src/configmgr/configmgr.hpp`): the per-profile `ConfigurationObject`
(its D-Bus method dispatcher `callback_method_call`, property callbacks
`callback_get_property` / `callback_set_property`) and the registry
`ConfigManagerObject` (`Import`, `FetchAvailableConfigs`,
`remove_config_object`).

Callers are identified by their resolved uid (`GetUID(sender)` in the
source); uid 0 is the privileged backend (root).  The registry's
`config_objects` member is a `std::map<std::string, ConfigurationObject*>`
keyed by the D-Bus object path, modelled as an association list kept in
ascending key order, which is how `std::map` iterates.  The alias D-Bus
registrations live in a second association list `aliases`.

Access-check primitives (`CheckACL`, `CheckOwnerAccess`, `GrantAccess`,
`RevokeAccess`, `GetOwner`, `GetAccessList`) come from
`dbus/connection-creds.hpp`, which is not part of the sources here; they
are modelled from the spec's ACL-evaluator description (section 4.1) and
each carries a doc comment saying so.  The configuration payload is kept
opaque (a string); the raw/JSON serializers are external collaborators.
-/

namespace ConfigMgr

/-- A caller's subject identity: the resolved uid of the D-Bus sender.
Uid 0 is the privileged backend (root). -/
abbrev Uid := Nat

/-- The error outcomes a call can produce, one per error channel in the
source: D-Bus credentials failures, the ReadOnly method error, the Seal
InvalidData error, property-callback exceptions, the bus-level missing
object error, and the profile-parser rejection. -/
inductive CfgError where
  | accessDenied
  | readOnly
  | invalidData
  | propReadOnly
  | propDenied
  | aliasExists
  | notFound
  | inputRejected
deriving DecidableEq, Repr

/-- One imported VPN configuration profile: the state of a
`ConfigurationObject` (configmgr.hpp lines 291-846).  `acl_list` and
`acl_public` are the granted-uid list and public-access flag kept by the
`DBusCredentials` base; `aliasName` is the name of the attached
`ConfigurationAlias` object, if any. -/
structure ConfigurationObject where
  owner : Uid
  acl_list : List Uid
  acl_public : Bool
  name : String
  content : String
  import_tstamp : Nat
  last_use_tstamp : Nat
  used_count : Nat
  valid : Bool
  readonly : Bool
  single_use : Bool
  persistent : Bool
  locked_down : Bool
  persist_tun : Bool
  aliasName : Option String
deriving DecidableEq, Repr

/-- The registry state of `ConfigManagerObject`: `config_objects` is the
`std::map` from object path to profile (ascending key order), `aliases`
the set of registered alias D-Bus objects (alias name to config path). -/
structure ConfigManagerObject where
  config_objects : List (String × ConfigurationObject)
  aliases : List (String × String)
deriving DecidableEq, Repr

/-- Lookup in an association list, first match: `std::map::find`. -/
def mapFind {α : Type} (k : String) : List (String × α) → Option α
  | [] => none
  | e :: rest => if e.1 = k then some e.2 else mapFind k rest

/-- Lexicographic strict order on character lists: the byte order
`std::string::operator<` uses for the map keys. -/
def charListLt : List Char → List Char → Bool
  | [], [] => false
  | [], _ :: _ => true
  | _ :: _, [] => false
  | a :: as, b :: bs =>
    if a < b then true
    else if b < a then false
    else charListLt as bs

/-- Lexicographic strict order on strings (`std::map`'s key order). -/
def strLt (a b : String) : Bool :=
  charListLt a.data b.data

/-- Insertion in ascending key order, replacing an existing binding:
`std::map::operator[]` followed by assignment. -/
def mapInsert {α : Type} (k : String) (v : α) : List (String × α) → List (String × α)
  | [] => [(k, v)]
  | e :: rest =>
    if strLt k e.1 then (k, v) :: e :: rest
    else if k = e.1 then (k, v) :: rest
    else e :: mapInsert k v rest

/-- Key removal: `std::map::erase`. -/
def mapErase {α : Type} (k : String) (m : List (String × α)) : List (String × α) :=
  m.filter (fun e => e.1 ≠ k)

/-- In-place mutation of the object stored under `k` (the C++ code
mutates the pointed-to `ConfigurationObject`; the key and the map shape
are untouched). -/
def mapUpdate {α : Type} (k : String) (v : α) (m : List (String × α)) : List (String × α) :=
  m.map (fun e => if e.1 = k then (k, v) else e)

/-- Modelled from the spec: `DBusCredentials::CheckACL(sender, allow_root)`
from the missing `dbus/connection-creds.hpp`.  Per the spec's Read
evaluator (4.1): the owner is allowed; the privileged backend (root,
uid 0) is allowed when the call site passes `allow_root`; a granted uid is
allowed; `public_access` allows anyone.  The lock-down restriction is not
part of this primitive — the call sites in configmgr.hpp branch on
`locked_down` themselves. -/
def CheckACL (co : ConfigurationObject) (sender : Uid) (allow_root : Bool) : Bool :=
  sender = co.owner || (allow_root && sender = 0) ||
    co.acl_list.contains sender || co.acl_public

/-- Modelled from the spec: `DBusCredentials::CheckOwnerAccess(sender,
allow_root)` from the missing `dbus/connection-creds.hpp`.  Owner mode
(4.1): only the owner passes, plus the privileged backend when the call
site passes `allow_root`. -/
def CheckOwnerAccess (co : ConfigurationObject) (sender : Uid) (allow_root : Bool) : Bool :=
  sender = co.owner || (allow_root && sender = 0)

/-- Modelled from the spec: `DBusCredentials::GrantAccess(uid)` — adds a
uid to the granted list; idempotent (4.2: granting an already-granted
subject is a no-op success). -/
def GrantAccess (co : ConfigurationObject) (uid : Uid) : ConfigurationObject :=
  if co.acl_list.contains uid then co
  else { co with acl_list := co.acl_list ++ [uid] }

/-- Modelled from the spec: `DBusCredentials::RevokeAccess(uid)` — removes
a uid from the granted list; idempotent. -/
def RevokeAccess (co : ConfigurationObject) (uid : Uid) : ConfigurationObject :=
  { co with acl_list := co.acl_list.filter (fun u => u ≠ uid) }

/-- Modelled from the spec: the size guard of the profile parser
(`OptionList::Limits` with `ProfileParseLimits::MAX_PROFILE_SIZE`, from
the missing `common/core-extensions.hpp`).  Only the total-size bound of
the size/structure guard is modelled; the spec fixes no number, the
constant is the source domain's profile-size limit. -/
def MAX_PROFILE_SIZE : Nat := 262144

/-- Modelled from the spec: the guard rejects an oversized payload
("profile is too large"). -/
def profile_too_large (content : String) : Bool :=
  MAX_PROFILE_SIZE < content.length

/-- The freshly constructed profile (ConfigurationObject constructor,
lines 291-370): name and payload from the Import arguments, counters
zeroed, `valid` set true (content validation is a marked FIXME and always
passes), all other flags false.  (`locked_down` is absent from the
constructor's initializer list in the source; it is modelled with the
intended initial value `false`.) -/
def newProfile (creator : Uid) (cfgname content : String)
    (single_use persistent : Bool) (now : Nat) : ConfigurationObject :=
  { owner := creator
    acl_list := []
    acl_public := false
    name := cfgname
    content := content
    import_tstamp := now
    last_use_tstamp := 0
    used_count := 0
    valid := true
    readonly := false
    single_use := single_use
    persistent := persistent
    locked_down := false
    persist_tun := false
    aliasName := none }

/-- `Import` (ConfigManagerObject::callback_method_call, lines 943-965):
the caller supplies the freshly generated object path (the uuid generator
is an external collaborator).  The constructor's parse guard runs first;
on rejection no object is created or stored and the guard's error is
returned instead of an object path. -/
def configImport (mgr : ConfigManagerObject) (cfgpath : String) (creator : Uid)
    (cfgname content : String) (single_use persistent : Bool) (now : Nat) :
    ConfigManagerObject × Except CfgError String :=
  if profile_too_large content then
    (mgr, .error .inputRejected)
  else
    let co := newProfile creator cfgname content single_use persistent now
    ({ mgr with config_objects := mapInsert cfgpath co mgr.config_objects }, .ok cfgpath)

/-- The `Fetch` method (lines 404-446): if `locked_down`, only the owner
or root may read (`CheckOwnerAccess(sender, true)`), otherwise
`CheckACL(sender, true)`.  The exported text is returned first; then, if
the caller is root: a `single_use` profile is deleted (its destructor
erases it from the registry), otherwise `used_count` is incremented and
`last_use_tstamp` set. -/
def fetch (mgr : ConfigManagerObject) (path : String) (sender : Uid) (now : Nat) :
    ConfigManagerObject × Except CfgError String :=
  match mapFind path mgr.config_objects with
  | none => (mgr, .error .notFound)
  | some co =>
    let allowed := if co.locked_down then CheckOwnerAccess co sender true
                   else CheckACL co sender true
    if allowed then
      if sender = 0 then
        if co.single_use then
          ({ mgr with config_objects := mapErase path mgr.config_objects }, .ok co.content)
        else
          let co1 := { co with used_count := co.used_count + 1, last_use_tstamp := now }
          ({ mgr with config_objects := mapUpdate path co1 mgr.config_objects }, .ok co.content)
      else (mgr, .ok co.content)
    else (mgr, .error .accessDenied)

/-- The `FetchJSON` method (lines 447-478): same ACL shape but with no
root bypass (`CheckACL(sender)` / `CheckOwnerAccess(sender)` with
`allow_root` defaulted false), and deliberately no single-use removal and
no usage accounting. -/
def fetchJSON (mgr : ConfigManagerObject) (path : String) (sender : Uid) :
    ConfigManagerObject × Except CfgError String :=
  match mapFind path mgr.config_objects with
  | none => (mgr, .error .notFound)
  | some co =>
    let allowed := if co.locked_down then CheckOwnerAccess co sender false
                   else CheckACL co sender false
    if allowed then (mgr, .ok co.content) else (mgr, .error .accessDenied)

/-- The `SetOption` method (lines 479-500): the readonly guard runs before
the owner check; the operation body itself is a marked TODO (no option is
stored), so success mutates nothing. -/
def setOption (mgr : ConfigManagerObject) (path : String) (sender : Uid) :
    ConfigManagerObject × Except CfgError Unit :=
  match mapFind path mgr.config_objects with
  | none => (mgr, .error .notFound)
  | some co =>
    if co.readonly then (mgr, .error .readOnly)
    else if CheckOwnerAccess co sender false then (mgr, .ok ())
    else (mgr, .error .accessDenied)

/-- The `AccessGrant` method (lines 501-529): readonly guard, owner check,
then `GrantAccess(uid)`. -/
def accessGrant (mgr : ConfigManagerObject) (path : String) (sender uid : Uid) :
    ConfigManagerObject × Except CfgError Unit :=
  match mapFind path mgr.config_objects with
  | none => (mgr, .error .notFound)
  | some co =>
    if co.readonly then (mgr, .error .readOnly)
    else if CheckOwnerAccess co sender false then
      ({ mgr with config_objects := mapUpdate path (GrantAccess co uid) mgr.config_objects },
       .ok ())
    else (mgr, .error .accessDenied)

/-- The `AccessRevoke` method (lines 530-558): readonly guard, owner
check, then `RevokeAccess(uid)`. -/
def accessRevoke (mgr : ConfigManagerObject) (path : String) (sender uid : Uid) :
    ConfigManagerObject × Except CfgError Unit :=
  match mapFind path mgr.config_objects with
  | none => (mgr, .error .notFound)
  | some co =>
    if co.readonly then (mgr, .error .readOnly)
    else if CheckOwnerAccess co sender false then
      ({ mgr with config_objects := mapUpdate path (RevokeAccess co uid) mgr.config_objects },
       .ok ())
    else (mgr, .error .accessDenied)

/-- The `Seal` method (lines 559-582): owner check, then `readonly` is set
if `valid` holds, else the InvalidData error.  There is no guard against
an already-sealed profile. -/
def sealConfig (mgr : ConfigManagerObject) (path : String) (sender : Uid) :
    ConfigManagerObject × Except CfgError Unit :=
  match mapFind path mgr.config_objects with
  | none => (mgr, .error .notFound)
  | some co =>
    if CheckOwnerAccess co sender false then
      if co.valid then
        ({ mgr with config_objects := mapUpdate path { co with readonly := true } mgr.config_objects },
         .ok ())
      else (mgr, .error .invalidData)
    else (mgr, .error .accessDenied)

/-- The `Remove` method (lines 583-598): owner check only (no readonly
guard), then the object deletes itself — its destructor's
`remove_callback` erases the path from the registry
(`remove_config_object`, lines 1078-1081).  The destructor does not touch
the alias registration. -/
def remove (mgr : ConfigManagerObject) (path : String) (sender : Uid) :
    ConfigManagerObject × Except CfgError Unit :=
  match mapFind path mgr.config_objects with
  | none => (mgr, .error .notFound)
  | some co =>
    if CheckOwnerAccess co sender false then
      ({ mgr with config_objects := mapErase path mgr.config_objects }, .ok ())
    else (mgr, .error .accessDenied)

/-- A D-Bus property value: uint32, uint64, boolean, string, or the acl
uid array. -/
inductive PropValue where
  | u (v : Nat)
  | t (v : Nat)
  | b (v : Bool)
  | s (v : String)
  | uList (v : List Nat)
deriving DecidableEq, Repr

/-- `ConfigurationObject::callback_get_property` (lines 621-718): `owner`
is answered before any access check; `persist_tun` sets `allow_root`; all
remaining properties run `CheckACL(sender, allow_root)` and are answered
on success ("Unknown property" otherwise).  `GetOwner`/`GetPublicAccess`/
`GetAccessList` are trivial accessors of the credentials base, modelled
from the spec as returning the stored owner, flag and granted list. -/
def callback_get_property (co : ConfigurationObject) (sender : Uid)
    (prop : String) : Except CfgError PropValue :=
  if prop = "owner" then .ok (.u co.owner)
  else
    let allow_root := prop = "persist_tun"
    if CheckACL co sender allow_root then
      if prop = "single_use" then .ok (.b co.single_use)
      else if prop = "persistent" then .ok (.b co.persistent)
      else if prop = "valid" then .ok (.b co.valid)
      else if prop = "readonly" then .ok (.b co.readonly)
      else if prop = "name" then .ok (.s co.name)
      else if prop = "import_timestamp" then .ok (.t co.import_tstamp)
      else if prop = "last_used_timestamp" then .ok (.t co.last_use_tstamp)
      else if prop = "used_count" then .ok (.u co.used_count)
      else if prop = "alias" then .ok (.s (co.aliasName.getD ""))
      else if prop = "locked_down" then .ok (.b co.locked_down)
      else if prop = "public_access" then .ok (.b co.acl_public)
      else if prop = "persist_tun" then .ok (.b co.persist_tun)
      else if prop = "acl" then .ok (.uList co.acl_list)
      else .error .propDenied
    else .error .accessDenied

/-- Validity of an alias name: the `ConfigurationAlias` constructor
(lines 124-145) builds the object path `.../aliases/<name>` and rejects it
unless `g_variant_is_object_path` accepts it, i.e. the name is a
non-empty run of `[A-Za-z0-9_]` (GLib object-path element rule, external
collaborator). -/
def aliasNameValid (s : String) : Bool :=
  s ≠ "" && s.data.all (fun c => c.isAlphanum || c = '_')

/-- `ConfigurationObject::callback_set_property` (lines 737-829): the
readonly guard throws first; then the owner check; then dispatch on the
property name.  The `alias` branch first detaches and destroys any
existing alias (unconditionally), then constructs and registers a new
`ConfigurationAlias`; if construction or registration fails the new
object is deleted and the EXISTS error is thrown — the old alias is not
restored.  Registration failure on a name already registered by another
profile is modelled from the spec (4.3: a name already mapping to a
different profile is a conflict).  The `name`, `locked_down`,
`public_access` and `persist_tun` branches store the value; anything else
is "Denied". -/
def callback_set_property (mgr : ConfigManagerObject) (path : String) (sender : Uid)
    (prop : String) (value : PropValue) : ConfigManagerObject × Except CfgError Unit :=
  match mapFind path mgr.config_objects with
  | none => (mgr, .error .notFound)
  | some co =>
    if co.readonly then (mgr, .error .propReadOnly)
    else if CheckOwnerAccess co sender false then
      match prop, value with
      | "alias", .s newName =>
        let aliases1 := match co.aliasName with
          | some old => mapErase old mgr.aliases
          | none => mgr.aliases
        if aliasNameValid newName && (mapFind newName aliases1).isNone then
          let co1 := { co with aliasName := some newName }
          ({ config_objects := mapUpdate path co1 mgr.config_objects
             aliases := mapInsert newName path aliases1 }, .ok ())
        else
          let co1 := { co with aliasName := none }
          ({ config_objects := mapUpdate path co1 mgr.config_objects
             aliases := aliases1 }, .error .aliasExists)
      | "name", .s v =>
        ({ mgr with config_objects := mapUpdate path { co with name := v } mgr.config_objects },
         .ok ())
      | "locked_down", .b v =>
        ({ mgr with config_objects := mapUpdate path { co with locked_down := v } mgr.config_objects },
         .ok ())
      | "public_access", .b v =>
        ({ mgr with config_objects := mapUpdate path { co with acl_public := v } mgr.config_objects },
         .ok ())
      | "persist_tun", .b v =>
        ({ mgr with config_objects := mapUpdate path { co with persist_tun := v } mgr.config_objects },
         .ok ())
      | _, _ => (mgr, .error .propDenied)
    else (mgr, .error .propDenied)

/-- The `FetchAvailableConfigs` method (lines 966-996): walk the
`config_objects` map (ascending path order) and keep each path whose
profile passes `CheckACL(sender)` (no root bypass, no lock-down branch);
a credentials exception is swallowed and the entry skipped. -/
def fetchAvailableConfigs (mgr : ConfigManagerObject) (sender : Uid) : List String :=
  (mgr.config_objects.filter (fun e => CheckACL e.2 sender false)).map (fun e => e.1)

/-- Bus-level object lookup for a configuration path — the spec's
`Get(id) -> profile or NotFound` (4.4): a removed identity no longer
resolves. -/
def getConfig (mgr : ConfigManagerObject) (path : String) :
    Except CfgError ConfigurationObject :=
  match mapFind path mgr.config_objects with
  | none => .error .notFound
  | some co => .ok co

/-- Success test for a call result. -/
def resultOk {α : Type} : Except CfgError α → Bool
  | .ok _ => true
  | .error _ => false

/-- The spec's own Read evaluator for enumeration (4.1, applied per
profile by `List` with no backend bypass), written from the spec's words
for comparison with the code's `FetchAvailableConfigs` filter: owner
first, then the lock-down override, then grants, then public access. -/
def specListAllowed (co : ConfigurationObject) (s : Uid) : Bool :=
  if s = co.owner then true
  else if co.locked_down then false
  else if co.acl_list.contains s then true
  else if co.acl_public then true
  else false

/-- A locked-down profile owned by uid 1000 with a grant to uid 2000 and
public access on — exercising that neither grants nor `public_access`
open a locked-down profile. -/
def coLD : ConfigurationObject :=
  { owner := 1000
    acl_list := [2000]
    acl_public := true
    name := "work"
    content := "remote vpn.example.net"
    import_tstamp := 10
    last_use_tstamp := 0
    used_count := 0
    valid := true
    readonly := false
    single_use := false
    persistent := false
    locked_down := true
    persist_tun := false
    aliasName := none }

/-- Registry holding only the locked-down profile `coLD` at path "/c". -/
def mgrLD : ConfigManagerObject :=
  { config_objects := [("/c", coLD)], aliases := [] }

/-- An empty registry. -/
def mgrEmpty : ConfigManagerObject :=
  { config_objects := [], aliases := [] }

/-- A single-use profile owned by uid 1000. -/
def coSU : ConfigurationObject :=
  { owner := 1000
    acl_list := []
    acl_public := false
    name := "once"
    content := "remote one.example.net"
    import_tstamp := 3
    last_use_tstamp := 0
    used_count := 0
    valid := true
    readonly := false
    single_use := true
    persistent := false
    locked_down := false
    persist_tun := false
    aliasName := none }

/-- Registry holding only the single-use profile `coSU` at path "/s". -/
def mgrSU : ConfigManagerObject :=
  { config_objects := [("/s", coSU)], aliases := [] }

/-- A sealed (readonly) profile owned by uid 1000. -/
def coSealed : ConfigurationObject :=
  { owner := 1000
    acl_list := []
    acl_public := false
    name := "sealed"
    content := "remote two.example.net"
    import_tstamp := 4
    last_use_tstamp := 0
    used_count := 2
    valid := true
    readonly := true
    single_use := false
    persistent := true
    locked_down := false
    persist_tun := false
    aliasName := none }

/-- Registry holding only the sealed profile `coSealed` at path "/q". -/
def mgrSealed : ConfigManagerObject :=
  { config_objects := [("/q", coSealed)], aliases := [] }

/-- An oversized payload: one byte more than the parser's size bound. -/
def oversized : String :=
  String.mk (List.replicate (MAX_PROFILE_SIZE + 1) 'a')

/-- The readable properties of a configuration object other than `owner`
(the introspection list, lines 350-363). -/
def metadataProps : List String :=
  [ "single_use", "persistent", "valid", "readonly", "name", "import_timestamp",
    "last_used_timestamp", "used_count", "alias", "locked_down", "public_access",
    "persist_tun", "acl" ]

/-- A locked-down profile owned by uid 1000 with no grants and no public
access: uid 0 (the backend) is neither owner, granted nor public here. -/
def coC6 : ConfigurationObject :=
  { owner := 1000
    acl_list := []
    acl_public := false
    name := "secret"
    content := "remote three.example.net"
    import_tstamp := 6
    last_use_tstamp := 0
    used_count := 0
    valid := true
    readonly := false
    single_use := false
    persistent := false
    locked_down := true
    persist_tun := false
    aliasName := none }

/-- Sortedness of the registry map in its key (strictly ascending object
paths) — the `std::map` representation invariant. -/
def pathsSorted (m : List (String × ConfigurationObject)) : Prop :=
  m.Pairwise (fun a b => strLt a.1 b.1 = true)

/-- Registry built by two imports whose generated paths arrive in
descending order: "/b" first, then "/a". -/
def mgrOrd : ConfigManagerObject :=
  (configImport (configImport mgrEmpty "/b" 1000 "one" "remote a" false false 1).1
    "/a" 1000 "two" "remote b" false false 2).1

/-- A profile at "p1" holding alias "a". -/
def co7a : ConfigurationObject :=
  { owner := 1000
    acl_list := []
    acl_public := false
    name := "first"
    content := "remote x.example.net"
    import_tstamp := 1
    last_use_tstamp := 0
    used_count := 0
    valid := true
    readonly := false
    single_use := false
    persistent := false
    locked_down := false
    persist_tun := false
    aliasName := some "a" }

/-- A profile at "p2" holding alias "b". -/
def co7b : ConfigurationObject :=
  { owner := 1000
    acl_list := []
    acl_public := false
    name := "second"
    content := "remote y.example.net"
    import_tstamp := 2
    last_use_tstamp := 0
    used_count := 0
    valid := true
    readonly := false
    single_use := false
    persistent := false
    locked_down := false
    persist_tun := false
    aliasName := some "b" }

/-- Registry with both aliased profiles and their alias registrations. -/
def mgr7 : ConfigManagerObject :=
  { config_objects := [("p1", co7a), ("p2", co7b)]
    aliases := [("a", "p1"), ("b", "p2")] }

/-- One bus-level call against the registry with its arguments — used to
quantify over every operation the service accepts. -/
inductive Op where
  | opImport (path : String) (creator : Uid) (cfgname content : String) (su pe : Bool) (now : Nat)
  | opFetch (path : String) (sender : Uid) (now : Nat)
  | opFetchJSON (path : String) (sender : Uid)
  | opSetOption (path : String) (sender : Uid)
  | opAccessGrant (path : String) (sender uid : Uid)
  | opAccessRevoke (path : String) (sender uid : Uid)
  | opSeal (path : String) (sender : Uid)
  | opRemove (path : String) (sender : Uid)
  | opSetProperty (path : String) (sender : Uid) (prop : String) (v : PropValue)
deriving DecidableEq

/-- The registry state after a call (the returned value discarded). -/
def applyOp (mgr : ConfigManagerObject) : Op → ConfigManagerObject
  | .opImport p cr nm ct su pe t => (configImport mgr p cr nm ct su pe t).1
  | .opFetch p s t => (fetch mgr p s t).1
  | .opFetchJSON p s => (fetchJSON mgr p s).1
  | .opSetOption p s => (setOption mgr p s).1
  | .opAccessGrant p s u => (accessGrant mgr p s u).1
  | .opAccessRevoke p s u => (accessRevoke mgr p s u).1
  | .opSeal p s => (sealConfig mgr p s).1
  | .opRemove p s => (remove mgr p s).1
  | .opSetProperty p s prop v => (callback_set_property mgr p s prop v).1

/-- Whether the call is an Import aimed at the given path.  The external
uuid generator guarantees fresh import paths, so excluding an import at a
retired path matches the source's behaviour. -/
def importsAt : Op → String → Bool
  | .opImport p _ _ _ _ _ _, q => p = q
  | _, _ => false

end ConfigMgr

namespace ConfigMgr

theorem mapFind_erase_self {α : Type} (k : String) (m : List (String × α)) :
    mapFind k (mapErase k m) = none := by
  induction m with
  | nil => rfl
  | cons e rest ih =>
    obtain ⟨a, b⟩ := e
    by_cases hak : a = k
    · simpa [mapErase, List.filter_cons, hak] using ih
    · simpa [mapErase, List.filter_cons, hak, mapFind] using ih

theorem mapFind_erase_ne {α : Type} (p k : String) (m : List (String × α))
    (h : p ≠ k) : mapFind p (mapErase k m) = mapFind p m := by
  have hkp : k ≠ p := fun hc => h hc.symm
  induction m with
  | nil => rfl
  | cons e rest ih =>
    obtain ⟨a, b⟩ := e
    by_cases hak : a = k
    · have hap : a ≠ p := by
        intro hc
        exact h (by rw [← hc, hak])
      simpa [mapErase, List.filter_cons, hak, mapFind, hap, hkp] using ih
    · by_cases hap : a = p
      · simp [mapErase, List.filter_cons, hak, mapFind, hap, h]
      · simpa [mapErase, List.filter_cons, hak, mapFind, hap] using ih

theorem mapFind_update_self {α : Type} (k : String) (v : α) (m : List (String × α)) :
    mapFind k (mapUpdate k v m) = (mapFind k m).map (fun _ => v) := by
  induction m with
  | nil => rfl
  | cons e rest ih =>
    obtain ⟨a, b⟩ := e
    by_cases hak : a = k
    · simp [mapUpdate, mapFind, hak]
    · simpa [mapUpdate, mapFind, hak] using ih

theorem mapFind_update_ne {α : Type} (p k : String) (v : α) (m : List (String × α))
    (h : p ≠ k) : mapFind p (mapUpdate k v m) = mapFind p m := by
  have hkp : k ≠ p := fun hc => h hc.symm
  induction m with
  | nil => rfl
  | cons e rest ih =>
    obtain ⟨a, b⟩ := e
    by_cases hak : a = k
    · have hap : a ≠ p := by
        intro hc
        exact h (by rw [← hc, hak])
      simpa [mapUpdate, mapFind, hak, hap, hkp] using ih
    · by_cases hap : a = p
      · simp [mapUpdate, mapFind, hak, hap, h]
      · simpa [mapUpdate, mapFind, hak, hap] using ih

theorem mapFind_insert_self {α : Type} (k : String) (v : α) (m : List (String × α)) :
    mapFind k (mapInsert k v m) = some v := by
  induction m with
  | nil => simp [mapInsert, mapFind]
  | cons e rest ih =>
    obtain ⟨a, b⟩ := e
    by_cases hlt : strLt k a = true
    · simp only [mapInsert]
      rw [if_pos hlt]
      simp [mapFind]
    · by_cases heq : k = a
      · simp only [mapInsert]
        rw [if_neg hlt, if_pos heq]
        simp [mapFind]
      · have hak : a ≠ k := fun hc => heq hc.symm
        simp only [mapInsert]
        rw [if_neg hlt, if_neg heq]
        simpa [mapFind, hak] using ih

theorem mapFind_insert_ne {α : Type} (p k : String) (v : α) (m : List (String × α))
    (h : p ≠ k) : mapFind p (mapInsert k v m) = mapFind p m := by
  have hkp : k ≠ p := fun hc => h hc.symm
  induction m with
  | nil =>
    simp [mapInsert, mapFind, hkp]
  | cons e rest ih =>
    obtain ⟨a, b⟩ := e
    by_cases hlt : strLt k a = true
    · simp only [mapInsert]
      rw [if_pos hlt]
      simp [mapFind, hkp]
    · by_cases heq : k = a
      · simp only [mapInsert]
        rw [if_neg hlt, if_pos heq]
        have hap : a ≠ p := by
          intro hc
          exact hkp (heq.trans hc)
        simp [mapFind, hkp, hap]
      · simp only [mapInsert]
        rw [if_neg hlt, if_neg heq]
        by_cases hap : a = p
        · simp [mapFind, hap]
        · simpa [mapFind, hap] using ih

theorem mapFind_isSome_of_mem {α : Type} (p : String) (x : α)
    (m : List (String × α)) (hm : (p, x) ∈ m) : (mapFind p m).isSome := by
  induction m with
  | nil => simp at hm
  | cons e rest ih =>
    obtain ⟨a, b⟩ := e
    by_cases hap : a = p
    · simp [mapFind, hap]
    · rcases List.mem_cons.mp hm with hh | ht
      · rw [Prod.ext_iff] at hh
        exact absurd hh.1.symm hap
      · simpa [mapFind, hap] using ih ht

theorem not_mem_filtered_paths {α : Type} (p : String) (m : List (String × α))
    (f : String × α → Bool) (h : mapFind p m = none) :
    p ∉ (m.filter f).map (fun e => e.1) := by
  intro hmem
  rcases List.mem_map.mp hmem with ⟨e, hef, hfst⟩
  obtain ⟨a, b⟩ := e
  have hem : (a, b) ∈ m := List.mem_of_mem_filter hef
  have hsome := mapFind_isSome_of_mem a b m hem
  rw [show a = p from hfst] at hsome
  rw [h] at hsome
  simp at hsome

theorem fetch_none (mgr : ConfigManagerObject) (path : String) (s : Uid) (now : Nat)
    (h : mapFind path mgr.config_objects = none) :
    fetch mgr path s now = (mgr, .error .notFound) := by
  unfold fetch
  rw [h]

theorem fetch_some (mgr : ConfigManagerObject) (path : String) (s : Uid) (now : Nat)
    (co : ConfigurationObject) (h : mapFind path mgr.config_objects = some co) :
    fetch mgr path s now =
      if (if co.locked_down then CheckOwnerAccess co s true else CheckACL co s true) then
        if s = 0 then
          if co.single_use then
            ({ mgr with config_objects := mapErase path mgr.config_objects }, .ok co.content)
          else
            ({ mgr with config_objects := mapUpdate path { co with used_count := co.used_count + 1, last_use_tstamp := now } mgr.config_objects }, .ok co.content)
        else (mgr, .ok co.content)
      else (mgr, .error .accessDenied) := by
  unfold fetch
  rw [h]

theorem fetchJSON_none (mgr : ConfigManagerObject) (path : String) (s : Uid)
    (h : mapFind path mgr.config_objects = none) :
    fetchJSON mgr path s = (mgr, .error .notFound) := by
  unfold fetchJSON
  rw [h]

theorem fetchJSON_some (mgr : ConfigManagerObject) (path : String) (s : Uid)
    (co : ConfigurationObject) (h : mapFind path mgr.config_objects = some co) :
    fetchJSON mgr path s =
      if (if co.locked_down then CheckOwnerAccess co s false else CheckACL co s false) then
        (mgr, .ok co.content)
      else (mgr, .error .accessDenied) := by
  unfold fetchJSON
  rw [h]

theorem setOption_none (mgr : ConfigManagerObject) (path : String) (s : Uid)
    (h : mapFind path mgr.config_objects = none) :
    setOption mgr path s = (mgr, .error .notFound) := by
  unfold setOption
  rw [h]

theorem setOption_some (mgr : ConfigManagerObject) (path : String) (s : Uid)
    (co : ConfigurationObject) (h : mapFind path mgr.config_objects = some co) :
    setOption mgr path s =
      if co.readonly then (mgr, .error .readOnly)
      else if CheckOwnerAccess co s false then (mgr, .ok ())
      else (mgr, .error .accessDenied) := by
  unfold setOption
  rw [h]

theorem accessGrant_none (mgr : ConfigManagerObject) (path : String) (s uid : Uid)
    (h : mapFind path mgr.config_objects = none) :
    accessGrant mgr path s uid = (mgr, .error .notFound) := by
  unfold accessGrant
  rw [h]

theorem accessGrant_some (mgr : ConfigManagerObject) (path : String) (s uid : Uid)
    (co : ConfigurationObject) (h : mapFind path mgr.config_objects = some co) :
    accessGrant mgr path s uid =
      if co.readonly then (mgr, .error .readOnly)
      else if CheckOwnerAccess co s false then
        ({ mgr with config_objects := mapUpdate path (GrantAccess co uid) mgr.config_objects },
         .ok ())
      else (mgr, .error .accessDenied) := by
  unfold accessGrant
  rw [h]

theorem accessRevoke_none (mgr : ConfigManagerObject) (path : String) (s uid : Uid)
    (h : mapFind path mgr.config_objects = none) :
    accessRevoke mgr path s uid = (mgr, .error .notFound) := by
  unfold accessRevoke
  rw [h]

theorem accessRevoke_some (mgr : ConfigManagerObject) (path : String) (s uid : Uid)
    (co : ConfigurationObject) (h : mapFind path mgr.config_objects = some co) :
    accessRevoke mgr path s uid =
      if co.readonly then (mgr, .error .readOnly)
      else if CheckOwnerAccess co s false then
        ({ mgr with config_objects := mapUpdate path (RevokeAccess co uid) mgr.config_objects },
         .ok ())
      else (mgr, .error .accessDenied) := by
  unfold accessRevoke
  rw [h]

theorem sealConfig_none (mgr : ConfigManagerObject) (path : String) (s : Uid)
    (h : mapFind path mgr.config_objects = none) :
    sealConfig mgr path s = (mgr, .error .notFound) := by
  unfold sealConfig
  rw [h]

theorem sealConfig_some (mgr : ConfigManagerObject) (path : String) (s : Uid)
    (co : ConfigurationObject) (h : mapFind path mgr.config_objects = some co) :
    sealConfig mgr path s =
      if CheckOwnerAccess co s false then
        if co.valid then
          ({ mgr with config_objects := mapUpdate path { co with readonly := true } mgr.config_objects },
           .ok ())
        else (mgr, .error .invalidData)
      else (mgr, .error .accessDenied) := by
  unfold sealConfig
  rw [h]

theorem remove_none (mgr : ConfigManagerObject) (path : String) (s : Uid)
    (h : mapFind path mgr.config_objects = none) :
    remove mgr path s = (mgr, .error .notFound) := by
  unfold remove
  rw [h]

theorem remove_some (mgr : ConfigManagerObject) (path : String) (s : Uid)
    (co : ConfigurationObject) (h : mapFind path mgr.config_objects = some co) :
    remove mgr path s =
      if CheckOwnerAccess co s false then
        ({ mgr with config_objects := mapErase path mgr.config_objects }, .ok ())
      else (mgr, .error .accessDenied) := by
  unfold remove
  rw [h]

theorem setprop_none (mgr : ConfigManagerObject) (path : String) (s : Uid)
    (prop : String) (v : PropValue) (h : mapFind path mgr.config_objects = none) :
    callback_set_property mgr path s prop v = (mgr, .error .notFound) := by
  unfold callback_set_property
  rw [h]

theorem setprop_readonly (mgr : ConfigManagerObject) (path : String) (s : Uid)
    (prop : String) (v : PropValue) (co : ConfigurationObject)
    (h : mapFind path mgr.config_objects = some co) (hro : co.readonly = true) :
    callback_set_property mgr path s prop v = (mgr, .error .propReadOnly) := by
  unfold callback_set_property
  rw [h]
  simp [hro]

end ConfigMgr


namespace ConfigMgr

/-- C10: for every profile and every caller, reading the 'owner' property
succeeds and returns the owner's uid with no access-control check at all —
`callback_get_property` answers it before any `CheckACL`, so even a caller
denied every other read on a locked-down profile gets it. -/
theorem C10_owner_property_unrestricted (co : ConfigurationObject) (s : Uid) :
    callback_get_property co s "owner" = .ok (.u co.owner) := rfl

/-- C1: on a profile with `locked_down` set, the raw `Fetch` succeeds
exactly when the caller is the profile owner or the privileged backend
(root, uid 0) — every other caller is denied regardless of the granted
list and `public_access`; `FetchJSON` on the same profile succeeds exactly
for the owner: the backend bypass does not apply to the structured
form. -/
theorem C1_locked_down_fetch (mgr : ConfigManagerObject) (path : String)
    (co : ConfigurationObject) (s : Uid) (now : Nat)
    (hfind : mapFind path mgr.config_objects = some co)
    (hld : co.locked_down = true) :
    (resultOk (fetch mgr path s now).2 = true ↔ (s = co.owner ∨ s = 0))
    ∧ (resultOk (fetchJSON mgr path s).2 = true ↔ s = co.owner) := by
  rw [fetch_some mgr path s now co hfind, fetchJSON_some mgr path s co hfind, hld]
  simp only [eq_self_iff_true, if_true]
  constructor
  · by_cases hallow : CheckOwnerAccess co s true = true
    · have hdisj : s = co.owner ∨ s = 0 := by
        simpa [CheckOwnerAccess] using hallow
      rw [if_pos hallow]
      refine ⟨fun _ => hdisj, fun _ => ?_⟩
      by_cases hs : s = 0 <;> by_cases hsu : co.single_use <;>
        simp [hs, hsu, resultOk]
    · have hdisj : ¬(s = co.owner ∨ s = 0) := by
        simpa [CheckOwnerAccess] using hallow
      simp [hallow, hdisj, resultOk]
  · by_cases hallow : CheckOwnerAccess co s false = true
    · have hown : s = co.owner := by
        simpa [CheckOwnerAccess] using hallow
      rw [if_pos hallow]
      simp [resultOk, hown]
    · have hown : ¬ s = co.owner := by
        simpa [CheckOwnerAccess] using hallow
      simp [hallow, resultOk, hown]

/-- C1 witness: the locked-down profile `coLD` grants uid 2000 and is
public, yet caller 2000 is denied both fetch forms, root gets only the
raw fetch, and the owner gets both. -/
theorem C1_locked_down_fetch_witness :
    (mapFind "/c" mgrLD.config_objects = some coLD ∧ coLD.locked_down = true)
    ∧ (resultOk (fetch mgrLD "/c" 2000 5).2 = true ↔ (2000 = coLD.owner ∨ 2000 = 0))
    ∧ (resultOk (fetchJSON mgrLD "/c" 2000).2 = true ↔ 2000 = coLD.owner) := by
  have h1 : mapFind "/c" mgrLD.config_objects = some coLD := by decide
  have h2 : coLD.locked_down = true := by decide
  exact ⟨⟨h1, h2⟩, C1_locked_down_fetch mgrLD "/c" coLD 2000 5 h1 h2⟩

/-- C9: an Import whose payload the parser guard rejects (oversized)
fails with the guard's InputRejected error, returns no object path, and
stores nothing: the registry state is untouched, so no caller's
enumeration and no lookup can see a new profile. -/
theorem C9_import_guard (mgr : ConfigManagerObject) (cfgpath : String) (creator : Uid)
    (cfgname content : String) (su pe : Bool) (now : Nat)
    (hbig : profile_too_large content = true) :
    configImport mgr cfgpath creator cfgname content su pe now = (mgr, .error .inputRejected)
    ∧ (∀ s, fetchAvailableConfigs (configImport mgr cfgpath creator cfgname content su pe now).1 s
        = fetchAvailableConfigs mgr s)
    ∧ (∀ p, mapFind p ((configImport mgr cfgpath creator cfgname content su pe now).1).config_objects
        = mapFind p mgr.config_objects) := by
  have h : configImport mgr cfgpath creator cfgname content su pe now
      = (mgr, .error .inputRejected) := by
    unfold configImport
    simp [hbig]
  refine ⟨h, fun s => by rw [h], fun p => by rw [h]⟩

/-- C9 witness: a payload one byte over the size bound is rejected and
the empty registry stays empty. -/
theorem C9_import_guard_witness :
    profile_too_large oversized = true
    ∧ configImport mgrEmpty "/x" 1000 "work" oversized true false 0
        = (mgrEmpty, .error .inputRejected) := by
  have hbig : profile_too_large oversized = true := by
    have hlen : oversized.length = MAX_PROFILE_SIZE + 1 := by
      show (List.replicate (MAX_PROFILE_SIZE + 1) 'a').length = MAX_PROFILE_SIZE + 1
      simp
    simp [profile_too_large, hlen]
  exact ⟨hbig, (C9_import_guard mgrEmpty "/x" 1000 "work" oversized true false 0 hbig).1⟩

end ConfigMgr

namespace ConfigMgr

/-- C2: the first raw Fetch of a single-use profile by the privileged
backend (root) returns the content, and immediately afterwards the
profile is erased from the registry: lookup fails, enumeration omits the
path for every caller, every further operation on the identity is
NotFound, and importing at any other (fresh) path never resurrects the
identity. -/
theorem C2_single_use_consumed (mgr : ConfigManagerObject) (path : String)
    (co : ConfigurationObject) (now : Nat)
    (hfind : mapFind path mgr.config_objects = some co)
    (hsu : co.single_use = true) :
    (fetch mgr path 0 now).2 = .ok co.content
    ∧ mapFind path ((fetch mgr path 0 now).1).config_objects = none
    ∧ getConfig (fetch mgr path 0 now).1 path = .error .notFound
    ∧ (∀ s, path ∉ fetchAvailableConfigs (fetch mgr path 0 now).1 s)
    ∧ (∀ s now2, fetch (fetch mgr path 0 now).1 path s now2
        = ((fetch mgr path 0 now).1, .error .notFound))
    ∧ (∀ s, fetchJSON (fetch mgr path 0 now).1 path s
        = ((fetch mgr path 0 now).1, .error .notFound))
    ∧ (∀ s, sealConfig (fetch mgr path 0 now).1 path s
        = ((fetch mgr path 0 now).1, .error .notFound))
    ∧ (∀ s, remove (fetch mgr path 0 now).1 path s
        = ((fetch mgr path 0 now).1, .error .notFound))
    ∧ (∀ p2 cr nm ct su pe t, p2 ≠ path →
        mapFind path ((configImport (fetch mgr path 0 now).1 p2 cr nm ct su pe t).1).config_objects
          = none) := by
  have hallow : (if co.locked_down = true then CheckOwnerAccess co 0 true
      else CheckACL co 0 true) = true := by
    cases h : co.locked_down <;> simp [h, CheckOwnerAccess, CheckACL]
  have hfetch : fetch mgr path 0 now
      = ({ mgr with config_objects := mapErase path mgr.config_objects }, .ok co.content) := by
    rw [fetch_some mgr path 0 now co hfind, if_pos hallow]
    simp [hsu]
  have hnone : mapFind path ((fetch mgr path 0 now).1).config_objects = none := by
    rw [hfetch]
    exact mapFind_erase_self path mgr.config_objects
  refine ⟨by rw [hfetch], hnone, ?_, ?_, ?_, ?_, ?_, ?_, ?_⟩
  · unfold getConfig
    rw [hnone]
  · intro s
    unfold fetchAvailableConfigs
    exact not_mem_filtered_paths path _ _ hnone
  · intro s now2
    exact fetch_none _ path s now2 hnone
  · intro s
    exact fetchJSON_none _ path s hnone
  · intro s
    exact sealConfig_none _ path s hnone
  · intro s
    exact remove_none _ path s hnone
  · intro p2 cr nm ct su pe t hne
    unfold configImport
    by_cases hbig : profile_too_large ct = true
    · simp only [hbig, if_true]
      exact hnone
    · simp only [hbig, if_false, Bool.false_eq_true]
      rw [mapFind_insert_ne path p2 _ _ (fun hc => hne hc.symm)]
      exact hnone

/-- C2 witness: root fetches the single-use profile at "/s"; the content
comes back and the identity is gone. -/
theorem C2_single_use_consumed_witness :
    (mapFind "/s" mgrSU.config_objects = some coSU ∧ coSU.single_use = true)
    ∧ (fetch mgrSU "/s" 0 9).2 = .ok coSU.content
    ∧ mapFind "/s" ((fetch mgrSU "/s" 0 9).1).config_objects = none := by
  have h1 : mapFind "/s" mgrSU.config_objects = some coSU := by decide
  have h2 : coSU.single_use = true := by decide
  have h := C2_single_use_consumed mgrSU "/s" coSU 9 h1 h2
  exact ⟨⟨h1, h2⟩, h.1, h.2.1⟩

/-- C8: `used_count` moves only on the privileged raw fetch: a successful
root Fetch of a non-single-use profile bumps it by exactly one and sets
`last_use_tstamp`; a Fetch by any non-root caller leaves the registry
state untouched whatever its outcome; `FetchJSON` never changes the
registry state for any caller.  (A root Fetch of a single-use profile
removes the profile instead — claim C2.) -/
theorem C8_used_count (mgr : ConfigManagerObject) (path : String)
    (co : ConfigurationObject) (s : Uid) (now : Nat)
    (hfind : mapFind path mgr.config_objects = some co) :
    (s = 0 → co.single_use = false →
      fetch mgr path s now
        = ({ mgr with config_objects := mapUpdate path { co with used_count := co.used_count + 1, last_use_tstamp := now } mgr.config_objects }, .ok co.content))
    ∧ (s = 0 → co.single_use = false →
      mapFind path ((fetch mgr path s now).1).config_objects
        = some { co with used_count := co.used_count + 1, last_use_tstamp := now })
    ∧ (s ≠ 0 → (fetch mgr path s now).1 = mgr)
    ∧ (fetchJSON mgr path s).1 = mgr := by
  have hupd : ∀ (hs : s = 0), co.single_use = false →
      fetch mgr path s now
        = ({ mgr with config_objects := mapUpdate path { co with used_count := co.used_count + 1, last_use_tstamp := now } mgr.config_objects }, .ok co.content) := by
    intro hs hns
    subst hs
    have hallow : (if co.locked_down = true then CheckOwnerAccess co 0 true
        else CheckACL co 0 true) = true := by
      cases h : co.locked_down <;> simp [h, CheckOwnerAccess, CheckACL]
    rw [fetch_some mgr path 0 now co hfind, if_pos hallow]
    simp [hns]
  refine ⟨hupd, ?_, ?_, ?_⟩
  · intro hs hns
    rw [hupd hs hns]
    have := mapFind_update_self path
      { co with used_count := co.used_count + 1, last_use_tstamp := now } mgr.config_objects
    rw [this, hfind]
    rfl
  · intro hs
    rw [fetch_some mgr path s now co hfind]
    by_cases hallow : (if co.locked_down = true then CheckOwnerAccess co s true
        else CheckACL co s true) = true
    · rw [if_pos hallow]
      simp [hs]
    · rw [if_neg hallow]
  · rw [fetchJSON_some mgr path s co hfind]
    by_cases hallow : (if co.locked_down = true then CheckOwnerAccess co s false
        else CheckACL co s false) = true
    · rw [if_pos hallow]
    · rw [if_neg hallow]

/-- C8 witness: root fetches the (non-single-use) locked-down profile at
"/c": the counter moves from 0 to 1 and the timestamp is set; FetchJSON
leaves the registry untouched. -/
theorem C8_used_count_witness :
    (mapFind "/c" mgrLD.config_objects = some coLD)
    ∧ fetch mgrLD "/c" 0 9
        = ({ mgrLD with config_objects := mapUpdate "/c" { coLD with used_count := coLD.used_count + 1, last_use_tstamp := 9 } mgrLD.config_objects }, .ok coLD.content)
    ∧ (fetchJSON mgrLD "/c" 0).1 = mgrLD := by
  have h1 : mapFind "/c" mgrLD.config_objects = some coLD := by decide
  have h := C8_used_count mgrLD "/c" coLD 0 9 h1
  exact ⟨h1, h.1 rfl (by decide), h.2.2.2⟩

end ConfigMgr

namespace ConfigMgr

/-- C3: on a sealed (readonly) profile every mutating call — SetOption,
AccessGrant, AccessRevoke, and every property write — is rejected with
the read-only error and the registry state is untouched; on a removed
profile (identity no longer in the registry) they all fail NotFound, the
identity having been retired; Remove by the owner is the one exception
and still succeeds from Sealed. -/
theorem C3_sealed_rejects_mutation (mgr : ConfigManagerObject) (path : String)
    (co : ConfigurationObject) (s uid : Uid)
    (hfind : mapFind path mgr.config_objects = some co)
    (hro : co.readonly = true) :
    setOption mgr path s = (mgr, .error .readOnly)
    ∧ accessGrant mgr path s uid = (mgr, .error .readOnly)
    ∧ accessRevoke mgr path s uid = (mgr, .error .readOnly)
    ∧ (∀ prop v, callback_set_property mgr path s prop v = (mgr, .error .propReadOnly))
    ∧ remove mgr path co.owner
        = ({ mgr with config_objects := mapErase path mgr.config_objects }, .ok ())
    ∧ (∀ (mgr2 : ConfigManagerObject) (p2 : String),
        mapFind p2 mgr2.config_objects = none →
        setOption mgr2 p2 s = (mgr2, .error .notFound)
        ∧ accessGrant mgr2 p2 s uid = (mgr2, .error .notFound)
        ∧ accessRevoke mgr2 p2 s uid = (mgr2, .error .notFound)
        ∧ (∀ prop v, callback_set_property mgr2 p2 s prop v = (mgr2, .error .notFound))
        ∧ sealConfig mgr2 p2 s = (mgr2, .error .notFound)) := by
  have hown : CheckOwnerAccess co co.owner false = true := by
    simp [CheckOwnerAccess]
  refine ⟨?_, ?_, ?_, ?_, ?_, ?_⟩
  · rw [setOption_some mgr path s co hfind]
    simp [hro]
  · rw [accessGrant_some mgr path s uid co hfind]
    simp [hro]
  · rw [accessRevoke_some mgr path s uid co hfind]
    simp [hro]
  · intro prop v
    exact setprop_readonly mgr path s prop v co hfind hro
  · rw [remove_some mgr path co.owner co hfind, if_pos hown]
  · intro mgr2 p2 hnone
    exact ⟨setOption_none mgr2 p2 s hnone,
           accessGrant_none mgr2 p2 s uid hnone,
           accessRevoke_none mgr2 p2 s uid hnone,
           fun prop v => setprop_none mgr2 p2 s prop v hnone,
           sealConfig_none mgr2 p2 s hnone⟩

/-- C3 witness: the sealed profile at "/q": the owner's SetOption and
persist_tun write fail ReadOnly, the owner's Remove still succeeds. -/
theorem C3_sealed_rejects_mutation_witness :
    (mapFind "/q" mgrSealed.config_objects = some coSealed ∧ coSealed.readonly = true)
    ∧ setOption mgrSealed "/q" 1000 = (mgrSealed, .error .readOnly)
    ∧ callback_set_property mgrSealed "/q" 1000 "persist_tun" (.b true)
        = (mgrSealed, .error .propReadOnly)
    ∧ remove mgrSealed "/q" coSealed.owner
        = ({ mgrSealed with config_objects := mapErase "/q" mgrSealed.config_objects }, .ok ()) := by
  have h1 : mapFind "/q" mgrSealed.config_objects = some coSealed := by decide
  have h2 : coSealed.readonly = true := by decide
  have h := C3_sealed_rejects_mutation mgrSealed "/q" coSealed 1000 2000 h1 h2
  exact ⟨⟨h1, h2⟩, h.1, h.2.2.2.1 "persist_tun" (.b true), h.2.2.2.2.1⟩

end ConfigMgr

namespace ConfigMgr

theorem mapFind_none_erase {α : Type} (p k : String) (m : List (String × α))
    (h : mapFind p m = none) : mapFind p (mapErase k m) = none := by
  by_cases hpk : p = k
  · subst hpk
    exact mapFind_erase_self p m
  · rw [mapFind_erase_ne p k m hpk]
    exact h

theorem mapFind_none_update {α : Type} (p k : String) (v : α) (m : List (String × α))
    (h : mapFind p m = none) : mapFind p (mapUpdate k v m) = none := by
  by_cases hpk : p = k
  · subst hpk
    rw [mapFind_update_self, h]
    rfl
  · rw [mapFind_update_ne p k v m hpk]
    exact h

theorem fetchJSON_state (mgr : ConfigManagerObject) (p : String) (s : Uid) :
    (fetchJSON mgr p s).1 = mgr := by
  unfold fetchJSON
  cases mapFind p mgr.config_objects with
  | none => rfl
  | some co =>
    dsimp only
    split <;> first | rfl | (split <;> rfl)

theorem setOption_state (mgr : ConfigManagerObject) (p : String) (s : Uid) :
    (setOption mgr p s).1 = mgr := by
  unfold setOption
  cases mapFind p mgr.config_objects with
  | none => rfl
  | some co =>
    dsimp only
    split
    · rfl
    · split <;> rfl

theorem GrantAccess_readonly (co : ConfigurationObject) (u : Uid) :
    (GrantAccess co u).readonly = co.readonly := by
  unfold GrantAccess
  split <;> rfl

/-- Every operation leaves the registry in one of four shapes: untouched,
one key erased, one fresh import inserted, or the object under one key
mutated in a readonly-preserving way. -/
theorem applyOp_shape (mgr : ConfigManagerObject) (op : Op) :
    applyOp mgr op = mgr
    ∨ (∃ p, (applyOp mgr op).config_objects = mapErase p mgr.config_objects)
    ∨ (∃ p v, importsAt op p = true
        ∧ (applyOp mgr op).config_objects = mapInsert p v mgr.config_objects)
    ∨ (∃ p co v, mapFind p mgr.config_objects = some co
        ∧ (co.readonly = true → v.readonly = true)
        ∧ (applyOp mgr op).config_objects = mapUpdate p v mgr.config_objects) := by
  cases op with
  | opImport p cr nm ct su pe t =>
    simp only [applyOp]
    unfold configImport
    by_cases hbig : profile_too_large ct = true
    · rw [if_pos hbig]
      exact Or.inl rfl
    · rw [if_neg hbig]
      refine Or.inr (Or.inr (Or.inl ⟨p, newProfile cr nm ct su pe t, ?_, rfl⟩))
      simp [importsAt]
  | opFetch p s t =>
    simp only [applyOp]
    cases hm : mapFind p mgr.config_objects with
    | none =>
      rw [fetch_none mgr p s t hm]
      exact Or.inl rfl
    | some co =>
      rw [fetch_some mgr p s t co hm]
      by_cases hallow : (if co.locked_down = true then CheckOwnerAccess co s true
          else CheckACL co s true) = true
      · rw [if_pos hallow]
        by_cases hs : s = 0
        · rw [if_pos hs]
          by_cases hsu : co.single_use = true
          · rw [if_pos hsu]
            exact Or.inr (Or.inl ⟨p, rfl⟩)
          · rw [if_neg hsu]
            refine Or.inr (Or.inr (Or.inr ⟨p, co, _, hm, ?_, rfl⟩))
            exact fun h => h
        · rw [if_neg hs]
          exact Or.inl rfl
      · rw [if_neg hallow]
        exact Or.inl rfl
  | opFetchJSON p s =>
    simp only [applyOp]
    exact Or.inl (fetchJSON_state mgr p s)
  | opSetOption p s =>
    simp only [applyOp]
    exact Or.inl (setOption_state mgr p s)
  | opAccessGrant p s u =>
    simp only [applyOp]
    cases hm : mapFind p mgr.config_objects with
    | none =>
      rw [accessGrant_none mgr p s u hm]
      exact Or.inl rfl
    | some co =>
      rw [accessGrant_some mgr p s u co hm]
      by_cases hro : co.readonly = true
      · rw [if_pos hro]
        exact Or.inl rfl
      · rw [if_neg hro]
        by_cases hown : CheckOwnerAccess co s false = true
        · rw [if_pos hown]
          refine Or.inr (Or.inr (Or.inr ⟨p, co, GrantAccess co u, hm, ?_, rfl⟩))
          rw [GrantAccess_readonly]
          exact fun h => h
        · rw [if_neg hown]
          exact Or.inl rfl
  | opAccessRevoke p s u =>
    simp only [applyOp]
    cases hm : mapFind p mgr.config_objects with
    | none =>
      rw [accessRevoke_none mgr p s u hm]
      exact Or.inl rfl
    | some co =>
      rw [accessRevoke_some mgr p s u co hm]
      by_cases hro : co.readonly = true
      · rw [if_pos hro]
        exact Or.inl rfl
      · rw [if_neg hro]
        by_cases hown : CheckOwnerAccess co s false = true
        · rw [if_pos hown]
          exact Or.inr (Or.inr (Or.inr ⟨p, co, RevokeAccess co u, hm, fun h => h, rfl⟩))
        · rw [if_neg hown]
          exact Or.inl rfl
  | opSeal p s =>
    simp only [applyOp]
    cases hm : mapFind p mgr.config_objects with
    | none =>
      rw [sealConfig_none mgr p s hm]
      exact Or.inl rfl
    | some co =>
      rw [sealConfig_some mgr p s co hm]
      by_cases hown : CheckOwnerAccess co s false = true
      · rw [if_pos hown]
        by_cases hv : co.valid = true
        · rw [if_pos hv]
          exact Or.inr (Or.inr (Or.inr ⟨p, co, { co with readonly := true }, hm, fun _ => rfl, rfl⟩))
        · rw [if_neg hv]
          exact Or.inl rfl
      · rw [if_neg hown]
        exact Or.inl rfl
  | opRemove p s =>
    simp only [applyOp]
    cases hm : mapFind p mgr.config_objects with
    | none =>
      rw [remove_none mgr p s hm]
      exact Or.inl rfl
    | some co =>
      rw [remove_some mgr p s co hm]
      by_cases hown : CheckOwnerAccess co s false = true
      · rw [if_pos hown]
        exact Or.inr (Or.inl ⟨p, rfl⟩)
      · rw [if_neg hown]
        exact Or.inl rfl
  | opSetProperty p s prop v =>
    simp only [applyOp]
    cases hm : mapFind p mgr.config_objects with
    | none =>
      rw [setprop_none mgr p s prop v hm]
      exact Or.inl rfl
    | some co =>
      unfold callback_set_property
      rw [hm]
      dsimp only
      by_cases hro : co.readonly = true
      · rw [if_pos hro]
        exact Or.inl rfl
      · rw [if_neg hro]
        by_cases hown : CheckOwnerAccess co s false = true
        · rw [if_pos hown]
          split
          · split
            · refine Or.inr (Or.inr (Or.inr ⟨p, co, _, hm, ?_, rfl⟩))
              exact fun h => h
            · refine Or.inr (Or.inr (Or.inr ⟨p, co, _, hm, ?_, rfl⟩))
              exact fun h => h
          · refine Or.inr (Or.inr (Or.inr ⟨p, co, _, hm, ?_, rfl⟩))
            exact fun h => h
          · refine Or.inr (Or.inr (Or.inr ⟨p, co, _, hm, ?_, rfl⟩))
            exact fun h => h
          · refine Or.inr (Or.inr (Or.inr ⟨p, co, _, hm, ?_, rfl⟩))
            exact fun h => h
          · refine Or.inr (Or.inr (Or.inr ⟨p, co, _, hm, ?_, rfl⟩))
            exact fun h => h
          · exact Or.inl rfl
        · rw [if_neg hown]
          exact Or.inl rfl

end ConfigMgr

namespace ConfigMgr

/-- C4 counterexample: the claim wants Seal on an already-Sealed profile
to fail with an InvalidState error, but the code's Seal branch guards
only on `valid` and never on `readonly`: the owner's Seal of the sealed
profile at "/q" returns success. -/
theorem C4_seal_on_sealed_counterexample :
    coSealed.readonly = true ∧ (sealConfig mgrSealed "/q" 1000).2 = .ok () :=
  ⟨rfl, rfl⟩

/-- C4 (amended): the lifecycle is monotone — no operation ever clears
`readonly` (Valid → Sealed is one-way), a removed identity stays absent
under every operation except an Import aimed at the same path (which the
fresh-uuid generator never produces) — but Seal by the owner of a
valid-content profile always succeeds, from Valid and from Sealed alike:
the source guards Seal only on `valid`, so sealing an already-sealed
profile is an idempotent success, not an InvalidState error. -/
theorem C4_lifecycle_monotone (mgr : ConfigManagerObject) (op : Op) (path : String)
    (hni : importsAt op path = false) :
    (∀ co co', mapFind path mgr.config_objects = some co →
      mapFind path (applyOp mgr op).config_objects = some co' →
      co.readonly = true → co'.readonly = true)
    ∧ (mapFind path mgr.config_objects = none →
      mapFind path (applyOp mgr op).config_objects = none)
    ∧ (∀ co, mapFind path mgr.config_objects = some co → co.valid = true →
      sealConfig mgr path co.owner
        = ({ mgr with config_objects := mapUpdate path { co with readonly := true } mgr.config_objects }, .ok ())) := by
  refine ⟨?_, ?_, ?_⟩
  · intro co co' hfind hafter hro
    rcases applyOp_shape mgr op with hsh | ⟨p, hsh⟩ | ⟨p, v, hip, hsh⟩ | ⟨p, co0, v, hm0, hpres, hsh⟩
    · rw [hsh] at hafter
      exact Option.some.inj (hfind.symm.trans hafter) ▸ hro
    · rw [hsh] at hafter
      by_cases hpp : path = p
      · subst hpp
        rw [mapFind_erase_self] at hafter
        exact Option.noConfusion hafter
      · rw [mapFind_erase_ne path p _ hpp] at hafter
        exact Option.some.inj (hfind.symm.trans hafter) ▸ hro
    · have hpp : path ≠ p := by
        intro hc
        subst hc
        rw [hni] at hip
        exact Bool.noConfusion hip
      rw [hsh, mapFind_insert_ne path p v _ hpp] at hafter
      exact Option.some.inj (hfind.symm.trans hafter) ▸ hro
    · rw [hsh] at hafter
      by_cases hpp : path = p
      · subst hpp
        rw [mapFind_update_self, hfind] at hafter
        have hvco : v = co' := by
          simpa using hafter
        have hcoco : co0 = co := Option.some.inj (hm0.symm.trans hfind)
        rw [← hvco]
        exact hpres (hcoco.symm ▸ hro)
      · rw [mapFind_update_ne path p v _ hpp] at hafter
        exact Option.some.inj (hfind.symm.trans hafter) ▸ hro
  · intro hnone
    rcases applyOp_shape mgr op with hsh | ⟨p, hsh⟩ | ⟨p, v, hip, hsh⟩ | ⟨p, co0, v, hm0, hpres, hsh⟩
    · rw [hsh]
      exact hnone
    · rw [hsh]
      exact mapFind_none_erase path p _ hnone
    · have hpp : path ≠ p := by
        intro hc
        subst hc
        rw [hni] at hip
        exact Bool.noConfusion hip
      rw [hsh, mapFind_insert_ne path p v _ hpp]
      exact hnone
    · rw [hsh]
      exact mapFind_none_update path p v _ hnone
  · intro co hfind hv
    have hown : CheckOwnerAccess co co.owner false = true := by
      simp [CheckOwnerAccess]
    rw [sealConfig_some mgr path co.owner co hfind, if_pos hown, if_pos hv]

/-- C4 witness: instantiated on the sealed registry with a SetOption
call: readonly stays set, and the owner's Seal of the (valid, already
sealed) profile succeeds with the sealed state. -/
theorem C4_lifecycle_monotone_witness :
    importsAt (Op.opSetOption "/q" 1000) "/q" = false
    ∧ (∀ co co', mapFind "/q" mgrSealed.config_objects = some co →
        mapFind "/q" (applyOp mgrSealed (Op.opSetOption "/q" 1000)).config_objects = some co' →
        co.readonly = true → co'.readonly = true)
    ∧ (∀ co, mapFind "/q" mgrSealed.config_objects = some co → co.valid = true →
        sealConfig mgrSealed "/q" co.owner
          = ({ mgrSealed with config_objects := mapUpdate "/q" { co with readonly := true } mgrSealed.config_objects }, .ok ())) := by
  have h0 : importsAt (Op.opSetOption "/q" 1000) "/q" = false := by decide
  have h := C4_lifecycle_monotone mgrSealed (Op.opSetOption "/q" 1000) "/q" h0
  exact ⟨h0, h.1, h.2.2⟩

end ConfigMgr

namespace ConfigMgr

/-- C6 counterexample: the claim wants every metadata read other than the
raw fetch denied for a backend caller that is neither owner, granted nor
public — and, on a locked-down profile, denied for every non-owner
including the backend.  In the code `callback_get_property` passes
`allow_root` for `persist_tun` and never consults `locked_down`: uid 0
reads `persist_tun` of the locked-down, grantless, non-public `coC6`
successfully. -/
theorem C6_backend_metadata_counterexample :
    ((0 : Uid) ≠ coC6.owner ∧ coC6.acl_list.contains 0 = false
      ∧ coC6.acl_public = false ∧ coC6.locked_down = true)
    ∧ callback_get_property coC6 0 "persist_tun" = .ok (.b false) :=
  ⟨by decide, rfl⟩

/-- C6 (amended): in metadata reads the backend bypass applies exactly to
the `persist_tun` property: a read of `persist_tun` succeeds iff
`CheckACL` with the root bypass passes (so the backend always can), and a
read of any other known property (besides the unrestricted `owner`)
succeeds iff the plain ACL — owner, granted list, `public_access` —
passes; `locked_down` plays no role in property reads. -/
theorem C6_property_read_acl (co : ConfigurationObject) (s : Uid) (prop : String)
    (hmem : prop ∈ metadataProps) :
    (prop = "persist_tun" →
      (resultOk (callback_get_property co s prop) = true ↔ CheckACL co s true = true))
    ∧ (prop ≠ "persist_tun" →
      (resultOk (callback_get_property co s prop) = true ↔ CheckACL co s false = true)) := by
  constructor
  · intro hpt
    subst hpt
    by_cases hacl : CheckACL co s true = true
    · simp [callback_get_property, hacl, resultOk]
    · simp [callback_get_property, hacl, resultOk]
  · intro hpt
    fin_cases hmem
    all_goals first
      | exact absurd rfl hpt
      | (by_cases hacl : CheckACL co s false = true
         · simp [callback_get_property, hacl, resultOk]
         · simp [callback_get_property, hacl, resultOk])

/-- C6 witness: on `coC6`, reading `name` (an ordinary property) follows
the plain ACL and reading `persist_tun` follows the ACL with root
bypass. -/
theorem C6_property_read_acl_witness :
    ("name" ∈ metadataProps ∧ "persist_tun" ∈ metadataProps)
    ∧ (resultOk (callback_get_property coC6 2000 "name") = true
        ↔ CheckACL coC6 2000 false = true)
    ∧ (resultOk (callback_get_property coC6 0 "persist_tun") = true
        ↔ CheckACL coC6 0 true = true) := by
  have h1 : "name" ∈ metadataProps := by decide
  have h2 : "persist_tun" ∈ metadataProps := by decide
  exact ⟨⟨h1, h2⟩,
    (C6_property_read_acl coC6 2000 "name" h1).2 (by decide),
    (C6_property_read_acl coC6 0 "persist_tun" h2).1 rfl⟩

end ConfigMgr

namespace ConfigMgr

theorem mem_of_mapFind {α : Type} (p : String) (x : α) (m : List (String × α))
    (h : mapFind p m = some x) : (p, x) ∈ m := by
  induction m with
  | nil => simp [mapFind] at h
  | cons e rest ih =>
    obtain ⟨a, b⟩ := e
    by_cases hap : a = p
    · subst hap
      simp [mapFind] at h
      subst h
      exact List.mem_cons_self _ _
    · simp [mapFind, hap] at h
      exact List.mem_cons_of_mem _ (ih h)

theorem charListLt_irrefl (l : List Char) : charListLt l l = false := by
  induction l with
  | nil => rfl
  | cons c cs ih =>
    simp [charListLt, ih]

theorem strLt_irrefl (a : String) : strLt a a = false :=
  charListLt_irrefl a.data

theorem mapFind_eq_of_mem_sorted (p : String) (x : ConfigurationObject)
    (m : List (String × ConfigurationObject))
    (hwf : pathsSorted m) (hm : (p, x) ∈ m) : mapFind p m = some x := by
  induction m with
  | nil => simp at hm
  | cons e rest ih =>
    obtain ⟨a, b⟩ := e
    rcases List.mem_cons.mp hm with hh | ht
    · rw [Prod.ext_iff] at hh
      obtain ⟨h1, h2⟩ := hh
      dsimp at h1 h2
      subst h1
      subst h2
      simp [mapFind]
    · have hpc := List.pairwise_cons.mp hwf
      have hap : a ≠ p := by
        intro hc
        have hlt := hpc.1 (p, x) ht
        rw [hc, strLt_irrefl] at hlt
        exact Bool.noConfusion hlt
      simp only [mapFind]
      rw [if_neg hap]
      exact ih hpc.2 ht

/-- C5 counterexample: two divergences from the claim.  First, the List
filter ignores `locked_down`: the granted caller 2000 sees the
locked-down profile "/c" although the spec's Read evaluator (with the
lock-down rule and no bypass) denies it.  Second, the walk is in
`std::map` key order, not import order: after importing "/b" then "/a",
the owner's listing is ["/a", "/b"], not insertion order ["/b", "/a"]. -/
theorem C5_list_counterexample :
    (specListAllowed coLD 2000 = false ∧ fetchAvailableConfigs mgrLD 2000 = ["/c"])
    ∧ fetchAvailableConfigs mgrOrd 1000 = ["/a", "/b"] := by
  refine ⟨⟨rfl, rfl⟩, ?_⟩
  decide

/-- C5 (amended): for a registry whose map is sorted (its representation
invariant), `FetchAvailableConfigs` returns exactly the paths of profiles
whose plain `CheckACL` (owner, grants, `public_access` — no root bypass,
no `locked_down` rule) admits the caller; denied profiles are silently
omitted and nothing else is reported; the output is in strictly
ascending object-path order (the `std::map` walk), which is import order
only when the generated paths happen to ascend. -/
theorem C5_list_filter (mgr : ConfigManagerObject) (s : Uid)
    (hwf : pathsSorted mgr.config_objects) :
    (∀ p, p ∈ fetchAvailableConfigs mgr s
      ↔ ∃ co, mapFind p mgr.config_objects = some co ∧ CheckACL co s false = true)
    ∧ (fetchAvailableConfigs mgr s).Pairwise (fun a b => strLt a b = true) := by
  constructor
  · intro p
    unfold fetchAvailableConfigs
    constructor
    · intro hp
      rcases List.mem_map.mp hp with ⟨e, hef, hfst⟩
      obtain ⟨a, b⟩ := e
      subst hfst
      have hmem : (a, b) ∈ mgr.config_objects := List.mem_of_mem_filter hef
      have hf : CheckACL b s false = true := by
        simpa using List.of_mem_filter hef
      exact ⟨b, mapFind_eq_of_mem_sorted a b _ hwf hmem, hf⟩
    · rintro ⟨co, hfindp, hacl⟩
      have hmem : (p, co) ∈ mgr.config_objects := mem_of_mapFind p co _ hfindp
      refine List.mem_map.mpr ⟨(p, co), ?_, rfl⟩
      exact List.mem_filter.mpr ⟨hmem, by simpa using hacl⟩
  · unfold fetchAvailableConfigs
    rw [List.pairwise_map]
    exact List.Pairwise.sublist (List.filter_sublist _) hwf

/-- C5 witness: on the sorted singleton registry `mgrLD`, "/c" is listed
for the granted caller 2000 exactly per `CheckACL`, and the output is
sorted. -/
theorem C5_list_filter_witness :
    pathsSorted mgrLD.config_objects
    ∧ ("/c" ∈ fetchAvailableConfigs mgrLD 2000
        ↔ ∃ co, mapFind "/c" mgrLD.config_objects = some co ∧ CheckACL co 2000 false = true)
    ∧ (fetchAvailableConfigs mgrLD 2000).Pairwise (fun a b => strLt a b = true) := by
  have hwf : pathsSorted mgrLD.config_objects := by
    simp [pathsSorted, mgrLD]
  have h := C5_list_filter mgrLD 2000 hwf
  exact ⟨hwf, h.1 "/c", h.2⟩

/-- C7 counterexample: profile "p2" holds alias "b"; its owner reassigns
the alias to "a", which already names "p1".  The call fails with the
conflict (EXISTS) error, but "p2" does not retain its previous alias
state: its old alias "b" was detached and destroyed before the conflict
was discovered and is not restored — aliasName is none and the "b"
registration is gone. -/
theorem C7_alias_conflict_counterexample :
    (mapFind "p2" mgr7.config_objects).map ConfigurationObject.aliasName = some (some "b")
    ∧ (callback_set_property mgr7 "p2" 1000 "alias" (.s "a")).2 = .error .aliasExists
    ∧ (mapFind "p2" ((callback_set_property mgr7 "p2" 1000 "alias" (.s "a")).1).config_objects).map
        ConfigurationObject.aliasName = some none
    ∧ mapFind "b" ((callback_set_property mgr7 "p2" 1000 "alias" (.s "a")).1).aliases = none :=
  ⟨rfl, rfl, rfl, rfl⟩

/-- C7 (amended): when the owner assigns an alias name that is already
registered for a different profile, the call fails with the EXISTS
(conflict) error and the conflicting profile's binding is untouched — but
the assignment is not atomic for the caller: the calling profile's
previous alias has already been detached (its registration removed) and
is not restored, leaving the caller with no alias.  All other profiles'
objects are unchanged. -/
theorem C7_alias_conflict (mgr : ConfigManagerObject) (path : String)
    (co : ConfigurationObject) (s : Uid) (newName oldName : String)
    (hfind : mapFind path mgr.config_objects = some co)
    (hro : co.readonly = false)
    (hown : s = co.owner)
    (hold : co.aliasName = some oldName)
    (hvalid : aliasNameValid newName = true)
    (hconf : (mapFind newName (mapErase oldName mgr.aliases)).isSome = true) :
    (callback_set_property mgr path s "alias" (.s newName)).2 = .error .aliasExists
    ∧ ((callback_set_property mgr path s "alias" (.s newName)).1).aliases
        = mapErase oldName mgr.aliases
    ∧ mapFind newName ((callback_set_property mgr path s "alias" (.s newName)).1).aliases
        = mapFind newName mgr.aliases
    ∧ mapFind path ((callback_set_property mgr path s "alias" (.s newName)).1).config_objects
        = some { co with aliasName := none }
    ∧ (∀ p2, p2 ≠ path →
        mapFind p2 ((callback_set_property mgr path s "alias" (.s newName)).1).config_objects
          = mapFind p2 mgr.config_objects) := by
  have hown' : CheckOwnerAccess co s false = true := by
    simp [CheckOwnerAccess, hown]
  have hnone : (mapFind newName (mapErase oldName mgr.aliases)).isNone = false := by
    cases hcase : mapFind newName (mapErase oldName mgr.aliases) with
    | none =>
      rw [hcase] at hconf
      simp at hconf
    | some q => rfl
  have hne : newName ≠ oldName := by
    intro hc
    subst hc
    rw [mapFind_erase_self] at hconf
    simp at hconf
  have hred : callback_set_property mgr path s "alias" (.s newName)
      = ({ config_objects := mapUpdate path { co with aliasName := none } mgr.config_objects
           aliases := mapErase oldName mgr.aliases }, .error .aliasExists) := by
    unfold callback_set_property
    rw [hfind]
    simp [hro, hown', hold, hvalid, hnone]
  refine ⟨by rw [hred], by rw [hred], ?_, ?_, ?_⟩
  · rw [hred]
    exact mapFind_erase_ne newName oldName _ hne
  · rw [hred]
    show mapFind path (mapUpdate path { co with aliasName := none } mgr.config_objects)
      = some { co with aliasName := none }
    rw [mapFind_update_self, hfind]
    rfl
  · intro p2 hne2
    rw [hred]
    exact mapFind_update_ne p2 path _ _ hne2

/-- C7 witness: the concrete conflict on `mgr7` ("p2" takes "a", already
bound to "p1"): the error is returned, "a" still resolves to "p1", "p2"
is left with no alias. -/
theorem C7_alias_conflict_witness :
    (mapFind "p2" mgr7.config_objects = some co7b ∧ co7b.aliasName = some "b"
      ∧ aliasNameValid "a" = true
      ∧ (mapFind "a" (mapErase "b" mgr7.aliases)).isSome = true)
    ∧ (callback_set_property mgr7 "p2" 1000 "alias" (.s "a")).2 = .error .aliasExists
    ∧ mapFind "a" ((callback_set_property mgr7 "p2" 1000 "alias" (.s "a")).1).aliases
        = mapFind "a" mgr7.aliases
    ∧ mapFind "p2" ((callback_set_property mgr7 "p2" 1000 "alias" (.s "a")).1).config_objects
        = some { co7b with aliasName := none } := by
  have h1 : mapFind "p2" mgr7.config_objects = some co7b := by decide
  have h2 : co7b.aliasName = some "b" := by decide
  have h3 : aliasNameValid "a" = true := by decide
  have h4 : (mapFind "a" (mapErase "b" mgr7.aliases)).isSome = true := by decide
  have h := C7_alias_conflict mgr7 "p2" co7b 1000 "a" "b" h1 (by decide) (by decide) h2 h3 h4
  exact ⟨⟨h1, h2, h3, h4⟩, h.1, h.2.2.1, h.2.2.2.1⟩

end ConfigMgr
